import Mathlib

/-!
Verification of the BCF binary codec core (noodles-bcf) against its
natural-language specification.

The development shallowly embeds:
* the typed-value wire codec (`readType`, `readValue`) — modelled from the
  spec (§4.1, §6), since its source file is not in the sample; its behavior
  is pinned by the unit tests in
  `src/noodles-bcf/src/record/codec/decoder/info/field/value.rs`;
* the INFO field decoder (`readIntegerValue`, `readFlagValue`,
  `readFloatValue`, `readCharacterValue`, `readStringValue`,
  `readFieldValue`) — translated from
  `src/noodles-bcf/src/record/codec/decoder/info/field/value.rs`;
* `read_info` — translated from
  `src/noodles-bcf/src/record/codec/decoder/info.rs`;
* the string dictionary (`StringMap`, `StringMaps`, the free `insert`) —
  the `StringMap` internals are modelled from the spec (§4.3) and pinned
  by the tests in `src/noodles-bcf/src/header/string_maps.rs`; the free
  `insert` and `StringMaps::default` are translated from that file;
* the lazy boundary indexer (`bcfIndex`) and `quality_score` — translated
  from `src/noodles-bcf/src/record/fields.rs`;
* the head of `try_into_vcf_record` — translated from
  `src/noodles-bcf/src/record/convert.rs`.

Bytes are modelled as `Nat` (each < 256 on real inputs); machine integers
use explicit two's-complement conversion; IEEE-754 floats are kept as raw
little-endian bit patterns (the code only classifies bit patterns, it never
does float arithmetic on them).  Rust panics (`todo!`, out-of-range slice
indexing) are modelled by a dedicated `panic` outcome.
-/

/-- Outcome of a Rust computation that may return `Ok`, return `Err`, or
panic (`todo!` / out-of-bounds slice index). -/
inductive DResult (ε : Type) (α : Type) where
  | ok (a : α)
  | err (e : ε)
  | panic
  deriving DecidableEq, Repr

/-- Little-endian interpretation of a byte list as a natural number. -/
def leNat : List Nat → Nat
  | [] => 0
  | b :: bs => b + 256 * leNat bs

/-- Two's-complement reading of `n` as a signed `w`-bit integer. -/
def toSigned (w : Nat) (n : Nat) : Int :=
  if n < 2 ^ (w - 1) then (n : Int) else (n : Int) - 2 ^ w

/-- Errors of the wire-level typed-value reader (`UnexpectedEof` for a
truncated buffer, `InvalidData` for an unrecognized tag).  Modelled from
the spec (§4.1, §7). -/
inductive WireError where
  | unexpectedEof
  | invalidData
  deriving DecidableEq, Repr

/-- Classified signed-integer wire element: the most extreme bit pattern is
the "missing" sentinel, the second-most-extreme is "end of vector", the
following six are reserved; everything else is a plain value.  Modelled
from the spec (§3 "Typed Value", §4.1) and the `Int8`/`Int16`/`Int32`
wrappers used by `src/noodles-bcf/src/record/codec/decoder/info/field/value.rs`. -/
inductive IntClass where
  | value (n : Int)
  | missing
  | endOfVector
  | reserved (n : Int)
  deriving DecidableEq, Repr

/-- Classified float wire element, by raw little-endian bit pattern.
Modelled from the spec (§3: reserved NaN payloads for "missing" /
"end of vector"). -/
inductive FloatClass where
  | value (bits : Nat)
  | missing
  | endOfVector
  | reserved (bits : Nat)
  deriving DecidableEq, Repr

/-- `Int8::from(i8)`: classify an int8 element. -/
def int8From (n : Int) : IntClass :=
  if n = -128 then .missing
  else if n = -127 then .endOfVector
  else if -126 ≤ n ∧ n ≤ -121 then .reserved n
  else .value n

/-- `Int16::from(i16)`: classify an int16 element. -/
def int16From (n : Int) : IntClass :=
  if n = -32768 then .missing
  else if n = -32767 then .endOfVector
  else if -32766 ≤ n ∧ n ≤ -32761 then .reserved n
  else .value n

/-- `Int32::from(i32)`: classify an int32 element. -/
def int32From (n : Int) : IntClass :=
  if n = -2147483648 then .missing
  else if n = -2147483647 then .endOfVector
  else if -2147483646 ≤ n ∧ n ≤ -2147483641 then .reserved n
  else .value n

/-- `Float::from(f32)`: classify a float element by bit pattern
(`0x7F800001` missing, `0x7F800002` end of vector, the next five
reserved). -/
def floatFromBits (b : Nat) : FloatClass :=
  if b = 0x7F800001 then .missing
  else if b = 0x7F800002 then .endOfVector
  else if 0x7F800003 ≤ b ∧ b ≤ 0x7F800007 then .reserved b
  else .value b

/-- A homogeneous wire array; elements are raw (unclassified), classification
happens at the use site, mirroring the per-element `Int8::from` calls in
the field decoder. -/
inductive ArrayValue where
  | int8 (vs : List Int)
  | int16 (vs : List Int)
  | int32 (vs : List Int)
  | float (vs : List Nat)
  deriving DecidableEq, Repr

/-- A decoded typed wire value.  Scalars are stored classified; a `none`
payload is the "type present, zero elements" state, distinct from a wholly
absent value (which decodes to `Option.none` at the `readValue` level).
Shape mirrors the `Value` enum consumed by
`src/noodles-bcf/src/record/codec/decoder/info/field/value.rs`. -/
inductive Value where
  | int8 (v : Option IntClass)
  | int16 (v : Option IntClass)
  | int32 (v : Option IntClass)
  | float (v : Option FloatClass)
  | string (v : Option (List Char))
  | array (a : ArrayValue)
  deriving DecidableEq, Repr

/-- A typed-value type tag with its resolved element count. -/
inductive Ty where
  | int8 (len : Nat)
  | int16 (len : Nat)
  | int32 (len : Nat)
  | float (len : Nat)
  | string (len : Nat)
  deriving DecidableEq, Repr

/-- Read one byte. -/
def readU8 : List Nat → Except WireError (Nat × List Nat)
  | [] => .error .unexpectedEof
  | b :: rest => .ok (b, rest)

/-- Read `w` bytes little-endian into a `Nat`. -/
def readBytesLE (w : Nat) (src : List Nat) : Except WireError (Nat × List Nat) :=
  if w ≤ src.length then .ok (leNat (src.take w), src.drop w)
  else .error .unexpectedEof

/-- Read `w` bytes little-endian as a signed integer. -/
def readSigned (w : Nat) (src : List Nat) : Except WireError (Int × List Nat) :=
  match readBytesLE w src with
  | .error e => .error e
  | .ok (n, rest) => .ok (toSigned (8 * w) n, rest)

/-- Modelled from the spec: the overflow count encoding — "if count ≥ 15
(the overflow sentinel), reads a following variable-width integer giving
the true count" (§4.1).  The following integer is a single int-typed
scalar; a negative count or a non-scalar-int tag is `InvalidData`. -/
def readArrayLen (src : List Nat) : Except WireError (Nat × List Nat) :=
  match readU8 src with
  | .error e => .error e
  | .ok (b, rest) =>
    if b / 16 = 1 then
      match b % 16 with
      | 1 =>
        match readSigned 1 rest with
        | .error e => .error e
        | .ok (n, r) => if n < 0 then .error .invalidData else .ok (n.toNat, r)
      | 2 =>
        match readSigned 2 rest with
        | .error e => .error e
        | .ok (n, r) => if n < 0 then .error .invalidData else .ok (n.toNat, r)
      | 3 =>
        match readSigned 4 rest with
        | .error e => .error e
        | .ok (n, r) => if n < 0 then .error .invalidData else .ok (n.toNat, r)
      | _ => .error .invalidData
    else .error .invalidData

/-- Modelled from the spec: read one type-tag unit — "the on-wire type
tag's low nibble selects the element kind; the high nibble (or a following
variable-length count encoding) selects element count" (§3, §6).  Kind 0
is the absent-type marker; kinds 1/2/3 are int8/int16/int32, 5 is float32,
7 is string; any other kind is `InvalidData`. -/
def readType (src : List Nat) : Except WireError (Option Ty × List Nat) :=
  match readU8 src with
  | .error e => .error e
  | .ok (b, rest) =>
    match (if b / 16 = 15 then readArrayLen rest
           else .ok (b / 16, rest) : Except WireError (Nat × List Nat)) with
    | .error e => .error e
    | .ok (len, rest2) =>
      match b % 16 with
      | 0 => .ok (none, rest2)
      | 1 => .ok (some (.int8 len), rest2)
      | 2 => .ok (some (.int16 len), rest2)
      | 3 => .ok (some (.int32 len), rest2)
      | 5 => .ok (some (.float len), rest2)
      | 7 => .ok (some (.string len), rest2)
      | _ => .error .invalidData

/-- Read `n` signed integers of `w` bytes each. -/
def readIntList (w : Nat) : Nat → List Nat → Except WireError (List Int × List Nat)
  | 0, src => .ok ([], src)
  | n + 1, src =>
    match readSigned w src with
    | .error e => .error e
    | .ok (v, rest) =>
      match readIntList w n rest with
      | .error e => .error e
      | .ok (vs, r) => .ok (v :: vs, r)

/-- Read `n` unsigned 4-byte little-endian bit patterns. -/
def readBitsList : Nat → List Nat → Except WireError (List Nat × List Nat)
  | 0, src => .ok ([], src)
  | n + 1, src =>
    match readBytesLE 4 src with
    | .error e => .error e
    | .ok (v, rest) =>
      match readBitsList n rest with
      | .error e => .error e
      | .ok (vs, r) => .ok (v :: vs, r)

/-- Modelled from the spec: decode one typed value (§4.1).  A resolved
count of 0 yields the kind's zero-element state, count 1 a classified
scalar, larger counts an array of raw elements; strings are read as a
single length-prefixed byte run (bytes identified with chars). -/
def readValue (src : List Nat) : Except WireError (Option Value × List Nat) :=
  match readType src with
  | .error e => .error e
  | .ok (none, rest) => .ok (none, rest)
  | .ok (some (.int8 0), rest) => .ok (some (.int8 none), rest)
  | .ok (some (.int8 1), rest) =>
    match readSigned 1 rest with
    | .error e => .error e
    | .ok (n, r) => .ok (some (.int8 (some (int8From n))), r)
  | .ok (some (.int8 len), rest) =>
    match readIntList 1 len rest with
    | .error e => .error e
    | .ok (vs, r) => .ok (some (.array (.int8 vs)), r)
  | .ok (some (.int16 0), rest) => .ok (some (.int16 none), rest)
  | .ok (some (.int16 1), rest) =>
    match readSigned 2 rest with
    | .error e => .error e
    | .ok (n, r) => .ok (some (.int16 (some (int16From n))), r)
  | .ok (some (.int16 len), rest) =>
    match readIntList 2 len rest with
    | .error e => .error e
    | .ok (vs, r) => .ok (some (.array (.int16 vs)), r)
  | .ok (some (.int32 0), rest) => .ok (some (.int32 none), rest)
  | .ok (some (.int32 1), rest) =>
    match readSigned 4 rest with
    | .error e => .error e
    | .ok (n, r) => .ok (some (.int32 (some (int32From n))), r)
  | .ok (some (.int32 len), rest) =>
    match readIntList 4 len rest with
    | .error e => .error e
    | .ok (vs, r) => .ok (some (.array (.int32 vs)), r)
  | .ok (some (.float 0), rest) => .ok (some (.float none), rest)
  | .ok (some (.float 1), rest) =>
    match readBytesLE 4 rest with
    | .error e => .error e
    | .ok (bits, r) => .ok (some (.float (some (floatFromBits bits))), r)
  | .ok (some (.float len), rest) =>
    match readBitsList len rest with
    | .error e => .error e
    | .ok (vs, r) => .ok (some (.array (.float vs)), r)
  | .ok (some (.string 0), rest) => .ok (some (.string none), rest)
  | .ok (some (.string len), rest) =>
    if len ≤ rest.length then
      .ok (some (.string (some ((rest.take len).map Char.ofNat))), rest.drop len)
    else .error .unexpectedEof

/-- Header-declared INFO field type
(`noodles_vcf::header::record::value::map::info::Type`). -/
inductive FieldTy where
  | integer
  | flag
  | float
  | character
  | string
  deriving DecidableEq, Repr

/-- Decoded domain field value
(`vcf::variant::record_buf::info::field::Value`), restricted to the
variants constructed by the INFO field decoder.  Floats are kept as raw
bit patterns. -/
inductive FieldValue where
  | integer (n : Int)
  | flag
  | float (bits : Nat)
  | character (c : Char)
  | string (s : List Char)
  | integerArray (vs : List (Option Int))
  | floatArray (vs : List (Option Nat))
  | characterArray (vs : List (Option Char))
  deriving DecidableEq, Repr

/-- The `DecodeError` of
`src/noodles-bcf/src/record/codec/decoder/info/field/value.rs`. -/
inductive FieldValueError where
  | unexpectedEof
  | invalidValue (e : WireError)
  | typeMismatch (actual : Option FieldTy) (expected : FieldTy)
  | missingCharacter
  deriving DecidableEq, Repr

/-- `type_mismatch_error`'s classification of a wire value's kind
(value.rs lines 169-179). -/
def actualFieldTy : Value → FieldTy
  | .int8 _ => .integer
  | .int16 _ => .integer
  | .int32 _ => .integer
  | .float _ => .float
  | .string _ => .string
  | .array (.int8 _) => .integer
  | .array (.int16 _) => .integer
  | .array (.int32 _) => .integer
  | .array (.float _) => .float

/-- `type_mismatch_error(value, expected)` (value.rs lines 169-179). -/
def typeMismatchError (v : Option Value) (expected : FieldTy) : FieldValueError :=
  .typeMismatch (v.map actualFieldTy) expected

/-- Classify every raw integer array element through `f`; a plain value
maps to `some`, the missing sentinel to `none`, and any other class
(end-of-vector, reserved) makes the whole classification fail — the
`todo!` branches of value.rs lines 43/61/79, modelled as `Option.none`
here and turned into a `panic` outcome at the use site. -/
def classifyIntElems (f : Int → IntClass) : List Int → Option (List (Option Int))
  | [] => some []
  | n :: t =>
    match f n with
    | .value m => (classifyIntElems f t).map (fun os => some m :: os)
    | .missing => (classifyIntElems f t).map (fun os => none :: os)
    | _ => none

/-- Classify every raw float array element; same shape as
`classifyIntElems` (value.rs line 117's `todo!`). -/
def classifyFloatElems : List Nat → Option (List (Option Nat))
  | [] => some []
  | b :: t =>
    match floatFromBits b with
    | .value m => (classifyFloatElems t).map (fun os => some m :: os)
    | .missing => (classifyFloatElems t).map (fun os => none :: os)
    | _ => none

/-- `read_integer_value` (value.rs lines 24-88). -/
def readIntegerValue (src : List Nat) : DResult FieldValueError (Option FieldValue × List Nat) :=
  match readValue src with
  | .error e => .err (.invalidValue e)
  | .ok (none, rest) => .ok (none, rest)
  | .ok (some (.int8 none), rest) => .ok (none, rest)
  | .ok (some (.int8 (some .missing)), rest) => .ok (none, rest)
  | .ok (some (.int8 (some (.value n))), rest) => .ok (some (.integer n), rest)
  | .ok (some (.int16 none), rest) => .ok (none, rest)
  | .ok (some (.int16 (some .missing)), rest) => .ok (none, rest)
  | .ok (some (.int16 (some (.value n))), rest) => .ok (some (.integer n), rest)
  | .ok (some (.int32 none), rest) => .ok (none, rest)
  | .ok (some (.int32 (some .missing)), rest) => .ok (none, rest)
  | .ok (some (.int32 (some (.value n))), rest) => .ok (some (.integer n), rest)
  | .ok (some (.array (.int8 vs)), rest) =>
    match classifyIntElems int8From vs with
    | some os => .ok (some (.integerArray os), rest)
    | none => .panic
  | .ok (some (.array (.int16 vs)), rest) =>
    match classifyIntElems int16From vs with
    | some os => .ok (some (.integerArray os), rest)
    | none => .panic
  | .ok (some (.array (.int32 vs)), rest) =>
    match classifyIntElems int32From vs with
    | some os => .ok (some (.integerArray os), rest)
    | none => .panic
  | .ok (some v, _) => .err (typeMismatchError (some v) .integer)

/-- Whether a wire value is accepted by `read_flag_value`: absent, or an
int8 scalar with value 1 (value.rs lines 90-99). -/
def flagAccepts : Option Value → Bool
  | none => true
  | some (.int8 (some (.value n))) => n == 1
  | _ => false

/-- `read_flag_value` (value.rs lines 90-99). -/
def readFlagValue (src : List Nat) : DResult FieldValueError (Option FieldValue × List Nat) :=
  match readValue src with
  | .error e => .err (.invalidValue e)
  | .ok (v, rest) =>
    if flagAccepts v then .ok (some .flag, rest)
    else .err (typeMismatchError v .flag)

/-- `read_float_value` (value.rs lines 101-126). -/
def readFloatValue (src : List Nat) : DResult FieldValueError (Option FieldValue × List Nat) :=
  match readValue src with
  | .error e => .err (.invalidValue e)
  | .ok (none, rest) => .ok (none, rest)
  | .ok (some (.float none), rest) => .ok (none, rest)
  | .ok (some (.float (some .missing)), rest) => .ok (none, rest)
  | .ok (some (.float (some (.value bits))), rest) => .ok (some (.float bits), rest)
  | .ok (some (.array (.float vs)), rest) =>
    match classifyFloatElems vs with
    | some os => .ok (some (.floatArray os), rest)
    | none => .panic
  | .ok (some v, _) => .err (typeMismatchError (some v) .float)

/-- `s.split(DELIMITER)` on a character list, `DELIMITER = ','`
(Rust `str::split` semantics: `n` delimiters yield `n + 1` segments,
empty segments included). -/
def splitOnComma : List Char → List (List Char)
  | [] => [[]]
  | c :: cs =>
    if c = ',' then [] :: splitOnComma cs
    else
      match splitOnComma cs with
      | [] => [[c]]
      | s :: ss => (c :: s) :: ss

/-- `read_character_value` (value.rs lines 128-155): a string of length
0 or 1 becomes a missing-character error / a single character; a longer
string is split on `','`, each segment's characters are flattened in, and
each literal `'.'` becomes `none`. -/
def readCharacterValue (src : List Nat) : DResult FieldValueError (Option FieldValue × List Nat) :=
  match readValue src with
  | .error e => .err (.invalidValue e)
  | .ok (none, rest) => .ok (none, rest)
  | .ok (some (.string none), rest) => .ok (none, rest)
  | .ok (some (.string (some s)), rest) =>
    if s.length ≤ 1 then
      match s with
      | [] => .err .missingCharacter
      | c :: _ => .ok (some (.character c), rest)
    else
      .ok (some (.characterArray
        (((splitOnComma s).flatten).map (fun c => if c = '.' then none else some c))), rest)
  | .ok (some v, _) => .err (typeMismatchError (some v) .character)

/-- `read_string_value` (value.rs lines 157-167). -/
def readStringValue (src : List Nat) : DResult FieldValueError (Option FieldValue × List Nat) :=
  match readValue src with
  | .error e => .err (.invalidValue e)
  | .ok (none, rest) => .ok (none, rest)
  | .ok (some (.string none), rest) => .ok (none, rest)
  | .ok (some (.string (some s)), rest) => .ok (some (.string s), rest)
  | .ok (some v, _) => .err (typeMismatchError (some v) .string)

/-- `read_value(src, ty)` of value.rs lines 11-22: dispatch on the
header-declared field type. -/
def readFieldValue (ty : FieldTy) (src : List Nat) :
    DResult FieldValueError (Option FieldValue × List Nat) :=
  match ty with
  | .integer => readIntegerValue src
  | .flag => readFlagValue src
  | .float => readFloatValue src
  | .character => readCharacterValue src
  | .string => readStringValue src

/-- Association-list lookup (keyed by `String`). -/
def alookup {β : Type} : List (String × β) → String → Option β
  | [], _ => none
  | (k', v') :: t, k => if k' = k then some v' else alookup t k

/-- Association-list insert with index-map semantics: an existing key keeps
its position and gets the new value, a new key is appended; the old value
(if any) is returned alongside the updated list. -/
def aput {β : Type} : List (String × β) → String → β → Option β × List (String × β)
  | [], k, v => (none, [(k, v)])
  | (k', v') :: t, k, v =>
    if k' = k then (some v', (k', v) :: t)
    else
      match aput t k v with
      | (o, t') => (o, (k', v') :: t')

/-- The BCF string dictionary.  Modelled from the spec (§3 "String
Dictionary Entry", §9: "a vector of `Option<String>` plus a reverse
name→index map"); the concrete behavior of `insert`/`insert_at` is pinned
by the unit tests in `src/noodles-bcf/src/header/string_maps.rs`
(`test_from_str_with_mixed_positions` shows that un-hinted inserts append
at `entries.len()`, leaving earlier holes unfilled). -/
structure StringMap where
  indices : List (String × Nat)
  entries : List (Option String)
  deriving DecidableEq, Repr

/-- The empty dictionary (`StringMap::default`). -/
def StringMap.empty : StringMap := ⟨[], []⟩

/-- `StringMap::get_index`: index → identifier; holes and out-of-range
indices are `none`. -/
def StringMap.getIndex (m : StringMap) (i : Nat) : Option String :=
  m.entries.getD i none

/-- `StringMap::get_full`: identifier → (index, stored identifier). -/
def StringMap.getFull (m : StringMap) (id : String) : Option (Nat × String) :=
  (alookup m.indices id).map (fun i => (i, id))

/-- `StringMap::insert`: append at the next fresh index (`entries.len()`)
when new; leave the map unchanged when the identifier is already bound. -/
def StringMap.insert (m : StringMap) (id : String) : StringMap :=
  match alookup m.indices id with
  | some _ => m
  | none => ⟨(aput m.indices id m.entries.length).2, m.entries ++ [some id]⟩

/-- `StringMap::insert_at`: extend `entries` with `none` holes up to
position `i` if needed, then bind `id` at exactly `i`. -/
def StringMap.insertAt (m : StringMap) (i : Nat) (id : String) : StringMap :=
  let es := if i < m.entries.length then m.entries
            else m.entries ++ List.replicate (i + 1 - m.entries.length) none
  ⟨(aput m.indices id i).2, es.set i (some id)⟩

/-- The relevant variant of `noodles_vcf::header::ParseError`: a
dictionary position mismatch carrying the `(actual, expected)`
`(index, identifier)` pairs. -/
inductive HeaderParseError where
  | stringMapPositionMismatch (actual : Nat × String) (expected : Nat × String)
  deriving DecidableEq, Repr

/-- The free `insert` of `src/noodles-bcf/src/header/string_maps.rs`
(lines 167-184): reconcile an identifier with an optional explicit index
hint against the dictionary. -/
def stringMapsInsert (m : StringMap) (id : String) (idx : Option Nat) :
    Except HeaderParseError StringMap :=
  match idx with
  | some i =>
    match m.getFull id with
    | some (j, entry) =>
      if (i, id) ≠ (j, entry) then
        .error (.stringMapPositionMismatch (i, id) (j, entry))
      else .ok m
    | none => .ok (m.insertAt i id)
  | none => .ok (m.insert id)

/-- The dictionary set: one dictionary for FILTER/INFO/FORMAT string
identifiers, one for contig names
(`src/noodles-bcf/src/header/string_maps.rs`). -/
structure StringMaps where
  stringStringMap : StringMap
  contigStringMap : StringMap
  deriving DecidableEq, Repr

/-- `StringMaps::default` (string_maps.rs lines 101-115): an empty contig
dictionary and a string dictionary holding only the implicit `PASS`
entry. -/
def stringMapsDefault : StringMaps :=
  { stringStringMap := StringMap.empty.insert "PASS"
    contigStringMap := StringMap.empty }

/-- Modelled from the spec: the header context `ReadField` consults — the
frozen string dictionary for key resolution and the header-declared type
per INFO key (§4.2).  The source file declaring `read_field`
(`record/codec/decoder/info/field.rs`) is not in the sample. -/
structure FieldHeader where
  stringMap : StringMap
  infoTypes : List (String × FieldTy)
  deriving DecidableEq, Repr

/-- The `DecodeError` of the missing `field.rs`, shaped from the spec:
either the key read/resolution fails, or the typed value conversion
fails. -/
inductive FieldError where
  | invalidKey
  | invalidValue (e : FieldValueError)
  deriving DecidableEq, Repr

/-- Modelled from the spec: read the dictionary index that identifies a
field's key — a typed int scalar wire value (§4.2 "Reads a dictionary
index (resolved through the String Dictionary) to obtain the field
key"). -/
def readKeyIndex (src : List Nat) : Except WireError (Nat × List Nat) :=
  match readValue src with
  | .error e => .error e
  | .ok (some (.int8 (some (.value n))), rest) =>
    if n < 0 then .error .invalidData else .ok (n.toNat, rest)
  | .ok (some (.int16 (some (.value n))), rest) =>
    if n < 0 then .error .invalidData else .ok (n.toNat, rest)
  | .ok (some (.int32 (some (.value n))), rest) =>
    if n < 0 then .error .invalidData else .ok (n.toNat, rest)
  | .ok _ => .error .invalidData

/-- Modelled from the spec: `ReadField(cursor, header)` — resolve the key
index through the string dictionary, then read a typed value and convert
it per the header-declared type for that key (§4.2). -/
def readField (hdr : FieldHeader) (src : List Nat) :
    DResult FieldError ((String × Option FieldValue) × List Nat) :=
  match readKeyIndex src with
  | .error _ => .err .invalidKey
  | .ok (i, rest) =>
    match hdr.stringMap.getIndex i with
    | none => .err .invalidKey
    | some key =>
      match alookup hdr.infoTypes key with
      | none => .err .invalidKey
      | some ty =>
        match readFieldValue ty rest with
        | .panic => .panic
        | .err e => .err (.invalidValue e)
        | .ok (v, rest2) => .ok ((key, v), rest2)

/-- The order-preserving INFO map
(`vcf::record::Info`, an `IndexMap<String, Option<Value>>`;
see `src/noodles-vcf/src/record/info.rs`). -/
def InfoMap : Type := List (String × Option FieldValue)

/-- `Info::insert`: index-map insert returning the previous value for the
key, if any (`src/noodles-vcf/src/record/info.rs` lines 175-181). -/
def infoInsert (m : InfoMap) (k : String) (v : Option FieldValue) :
    Option (Option FieldValue) × InfoMap :=
  aput m k v

/-- `InfoMap` lookup (`IndexMap::get`). -/
def infoLookup (m : InfoMap) (k : String) : Option (Option FieldValue) :=
  alookup m k

/-- The `DecodeError` of `src/noodles-bcf/src/record/codec/decoder/info.rs`. -/
inductive InfoError where
  | invalidField (e : FieldError)
  | duplicateKey (k : String)
  deriving DecidableEq, Repr

/-- The loop of `read_info` (info.rs lines 17-23): read `len` fields,
inserting each into the (mutable, caller-supplied) map; a field whose key
was already present aborts with `DuplicateKey`.  The result carries the
returned `Result`, the final state of the map out-parameter, and the final
cursor. -/
def readInfoLoop (hdr : FieldHeader) :
    Nat → List Nat → InfoMap → DResult InfoError Unit × InfoMap × List Nat
  | 0, src, info => (.ok (), info, src)
  | n + 1, src, info =>
    match readField hdr src with
    | .panic => (.panic, info, src)
    | .err e => (.err (.invalidField e), info, src)
    | .ok ((k, v), rest) =>
      match infoInsert info k v with
      | (some _, info') => (.err (.duplicateKey k), info', rest)
      | (none, info') => readInfoLoop hdr n rest info'

/-- `read_info` (info.rs lines 9-26): clear the caller's map, then run the
field loop.  The first component is the function's return value, the second
the final state of the `info` out-parameter, the third the final cursor. -/
def readInfo (hdr : FieldHeader) (len : Nat) (src : List Nat) (_info : InfoMap) :
    DResult InfoError Unit × InfoMap × List Nat :=
  readInfoLoop hdr len src ([] : InfoMap)

/-- Read `n` consecutive fields without any map bookkeeping; used to state
what an INFO block "contains". -/
def readFieldList (hdr : FieldHeader) :
    Nat → List Nat → DResult FieldError (List (String × Option FieldValue) × List Nat)
  | 0, src => .ok ([], src)
  | n + 1, src =>
    match readField hdr src with
    | .panic => .panic
    | .err e => .err e
    | .ok (kv, rest) =>
      match readFieldList hdr n rest with
      | .panic => .panic
      | .err e => .err e
      | .ok (fs, r) => .ok (kv :: fs, r)

/-- Insert a list of fields left to right (`IndexMap` semantics). -/
def infoInsertAll (m : InfoMap) : List (String × Option FieldValue) → InfoMap
  | [] => m
  | (k, v) :: t => infoInsertAll (infoInsert m k v).2 t

/-- `io::ErrorKind`s surfaced by the record-level code. -/
inductive IOErrorKind where
  | unexpectedEof
  | invalidData
  | invalidInput
  deriving DecidableEq, Repr

/-- Map a wire-reader error to the corresponding `io::ErrorKind`. -/
def wireToIo : WireError → IOErrorKind
  | .unexpectedEof => .unexpectedEof
  | .invalidData => .invalidData

/-- The boundary cache of a record's variable-length leading sub-fields
(`record/fields/bounds.rs`, layout per spec §6): half-open absolute byte
ranges for the identifiers and reference-bases fields. -/
structure Bounds where
  ids_range : Nat × Nat
  reference_bases_range : Nat × Nat
  deriving DecidableEq, Repr

/-- Byte offset of the format-key-count byte in the fixed prefix
(modelled from the spec's layout table, §6: 4+4+4+4+2+2+3 = 23). -/
def FORMAT_KEY_COUNT_INDEX : Nat := 23

/-- First byte of the variable-length suffix (`IDS_START_INDEX`,
fields.rs line 95). -/
def IDS_START_INDEX : Nat := FORMAT_KEY_COUNT_INDEX + 1

/-- `consume_string` (fields.rs lines 98-111): read one typed-value
header; a non-string (or absent) tag is `InvalidData`; on a string tag of
length `len`, the span is `[offset + header size, … + len)` and the
cursor advances past the payload.  Rust's `&buf[len..]` panics when `len`
exceeds the remaining buffer; that is the `panic` outcome. -/
def consumeString (buf : List Nat) (offset : Nat) :
    DResult IOErrorKind ((Nat × Nat) × List Nat) :=
  match readType buf with
  | .error e => .err (wireToIo e)
  | .ok (t, rest) =>
    match t with
    | some (.string len) =>
      let start := offset + (buf.length - rest.length)
      if len ≤ rest.length then .ok ((start, start + len), rest.drop len)
      else .panic
    | _ => .err .invalidData

/-- `index` (fields.rs lines 92-127): locate the identifiers and
reference-bases byte ranges by scanning two typed-value strings starting
right after the fixed prefix; returns the computed `Bounds`. -/
def bcfIndex (buf : List Nat) : DResult IOErrorKind Bounds :=
  if IDS_START_INDEX ≤ buf.length then
    match consumeString (buf.drop IDS_START_INDEX) IDS_START_INDEX with
    | .panic => .panic
    | .err e => .err e
    | .ok ((s1, e1), rest1) =>
      match consumeString rest1 e1 with
      | .panic => .panic
      | .err e => .err e
      | .ok ((s2, e2), _) =>
        .ok { ids_range := (s1, e1), reference_bases_range := (s2, e2) }
  else .err .unexpectedEof

/-- `quality_score` (fields.rs lines 43-58): classify the little-endian
float bit pattern at bytes 12..16 of the site buffer; a plain value is
`Ok(Some(_))`, the missing sentinel is `Ok(None)`, any other reserved
pattern is `InvalidData`.  Rust's fixed-range slicing panics when the
buffer is shorter than 16 bytes. -/
def qualityScore (buf : List Nat) : DResult IOErrorKind (Option Nat) :=
  if 16 ≤ buf.length then
    match floatFromBits (leNat ((buf.drop 12).take 4)) with
    | .value n => .ok (some n)
    | .missing => .ok none
    | _ => .err .invalidData
  else .panic

/-- `reference_sequence_id` (fields.rs lines 24-28): the signed 32-bit
little-endian integer at bytes 0..4. -/
def referenceSequenceId (buf : List Nat) : Int :=
  toSigned 32 (leNat (buf.take 4))

/-- Modelled from the spec: `Record::chromosome_id` — the fixed-prefix
chromosome id as a dictionary index ("chromosome id: 4 bytes, signed int,
dictionary index into contigs", §6); its declaring file is not in the
sample.  A negative id cannot be a dictionary index (`usize::try_from`
fails with `InvalidData`); Rust slicing panics on a buffer shorter than
4 bytes. -/
def chromosomeId (buf : List Nat) : DResult IOErrorKind Nat :=
  if 4 ≤ buf.length then
    let n := referenceSequenceId buf
    if n < 0 then .err .invalidData else .ok n.toNat
  else .panic

/-- The head of `try_into_vcf_record` (convert.rs lines 33-41): resolve
the contig name through the contig dictionary, failing with
`InvalidInput` when the chromosome id is not a bound index.  Everything
after the contig lookup (reference bases, alleles, filters, INFO,
genotypes, the builder) is abstracted as the continuation `rest`, since
the Rust `?` operator returns before any of it runs when the lookup
fails. -/
def tryIntoVcfRecord {α : Type} (rest : Nat → String → DResult IOErrorKind α)
    (buf : List Nat) (maps : StringMaps) : DResult IOErrorKind α :=
  match chromosomeId buf with
  | .panic => .panic
  | .err e => .err e
  | .ok cid =>
    match maps.contigStringMap.getIndex cid with
    | none => .err .invalidInput
    | some chrom => rest cid chrom

/-- C7: The default-constructed dictionary set has a string dictionary
containing exactly one entry — the identifier "PASS" bound at index 0 —
and an empty contig dictionary, before any header content is processed. -/
theorem c7_default_dictionary_set :
    stringMapsDefault.stringStringMap.entries = [some "PASS"]
    ∧ stringMapsDefault.stringStringMap.indices = [("PASS", 0)]
    ∧ stringMapsDefault.stringStringMap.getIndex 0 = some "PASS"
    ∧ stringMapsDefault.contigStringMap = StringMap.empty :=
  ⟨rfl, rfl, rfl, rfl⟩

/-- C9: The Integer field decoder is not total: an int8 / int16 / int32
array containing an end-of-vector sentinel element drives
`read_integer_value` into a `todo!` branch (modelled as `panic`), and the
same holds for `read_float_value` on float arrays; in contrast an array of
plain values decodes normally. -/
theorem c9_decoder_panics_on_end_of_vector_array_element :
    readIntegerValue [0x21, 0x08, 0x81] = .panic
    ∧ readIntegerValue [0x22, 0x15, 0x00, 0x01, 0x80] = .panic
    ∧ readIntegerValue [0x23, 0x15, 0x00, 0x00, 0x00, 0x01, 0x00, 0x00, 0x80] = .panic
    ∧ readFloatValue [0x25, 0x00, 0x00, 0x00, 0x00, 0x02, 0x00, 0x80, 0x7F] = .panic
    ∧ readIntegerValue [0x21, 0x08, 0x0D]
        = .ok (some (.integerArray [some 8, some 13]), []) :=
  ⟨rfl, rfl, rfl, rfl, rfl⟩

/-- C8: Whenever the chromosome id of a binary record is not a bound index
in the contig dictionary, `try_into_vcf_record` fails with an
`InvalidInput` error before any further conversion work runs (the
remainder of the conversion is the abstract continuation `rest`). -/
theorem c8_unbound_chromosome_id_is_invalid_input {α : Type}
    (rest : Nat → String → DResult IOErrorKind α) (buf : List Nat)
    (maps : StringMaps) (cid : Nat)
    (hcid : chromosomeId buf = .ok cid)
    (hunbound : maps.contigStringMap.getIndex cid = none) :
    tryIntoVcfRecord rest buf maps = .err .invalidInput := by
  unfold tryIntoVcfRecord
  rw [hcid]
  simp only [hunbound]

/-- C8 witness: a record whose chromosome id is 1 against the default
(empty) contig dictionary. -/
theorem c8_witness :
    chromosomeId [1, 0, 0, 0] = .ok 1
    ∧ stringMapsDefault.contigStringMap.getIndex 1 = none
    ∧ tryIntoVcfRecord (fun _ _ => (.ok 0 : DResult IOErrorKind Nat))
        [1, 0, 0, 0] stringMapsDefault = .err .invalidInput :=
  ⟨rfl, rfl,
    c8_unbound_chromosome_id_is_invalid_input _ [1, 0, 0, 0] stringMapsDefault 1 rfl rfl⟩

/-- C6: The Flag field decoder accepts exactly the absent wire value and
an int8 scalar with value 1 (yielding the data-free `Flag` marker); every
other decoded wire payload fails with `TypeMismatch`.  Concretely, wire
bytes `[0x00]` and `[0x11, 0x01]` decode to `Some(Flag)` and
`[0x11, 0x02]` fails with `TypeMismatch`. -/
theorem c6_flag_decoder (src rest : List Nat) (v : Option Value)
    (h : readValue src = .ok (v, rest)) :
    (flagAccepts v = true → readFlagValue src = .ok (some .flag, rest))
    ∧ (flagAccepts v = false →
        readFlagValue src = .err (typeMismatchError v .flag))
    ∧ (flagAccepts v = true ↔ v = none ∨ v = some (.int8 (some (.value 1))))
    ∧ readFlagValue [0x00] = .ok (some .flag, [])
    ∧ readFlagValue [0x11, 0x01] = .ok (some .flag, [])
    ∧ readFlagValue [0x11, 0x02] = .err (.typeMismatch (some .integer) .flag) := by
  refine ⟨?_, ?_, ?_, rfl, rfl, rfl⟩
  · intro hacc
    unfold readFlagValue
    rw [h]
    simp [hacc]
  · intro hacc
    unfold readFlagValue
    rw [h]
    simp [hacc]
  · constructor
    · intro hacc
      match v with
      | none => exact Or.inl rfl
      | some (.int8 (some (.value n))) =>
        refine Or.inr ?_
        have hn : n = 1 := by
          have := hacc
          simpa [flagAccepts] using this
        rw [hn]
      | some (.int8 none) => simp [flagAccepts] at hacc
      | some (.int8 (some .missing)) => simp [flagAccepts] at hacc
      | some (.int8 (some .endOfVector)) => simp [flagAccepts] at hacc
      | some (.int8 (some (.reserved _))) => simp [flagAccepts] at hacc
      | some (.int16 _) => simp [flagAccepts] at hacc
      | some (.int32 _) => simp [flagAccepts] at hacc
      | some (.float _) => simp [flagAccepts] at hacc
      | some (.string _) => simp [flagAccepts] at hacc
      | some (.array _) => simp [flagAccepts] at hacc
    · rintro (rfl | rfl) <;> rfl

/-- C6 witness: the theorem applied to the three concrete wire payloads. -/
theorem c6_witness :
    readFlagValue [0x00] = .ok (some .flag, [])
    ∧ readFlagValue [0x11, 0x01] = .ok (some .flag, [])
    ∧ readFlagValue [0x11, 0x02] = .err (.typeMismatch (some .integer) .flag) :=
  ⟨(c6_flag_decoder [0x00] [] none rfl).1 rfl,
    (c6_flag_decoder [0x11, 0x01] [] (some (.int8 (some (.value 1)))) rfl).1 rfl,
    (c6_flag_decoder [0x11, 0x02] [] (some (.int8 (some (.value 2)))) rfl).2.1 rfl⟩

/-- If every raw element of an integer array is either the missing
sentinel or a plain value, classification succeeds and maps the sentinel
to `none` and each plain value to itself. -/
theorem classifyIntElems_of_plain_or_missing (f : Int → IntClass) (sent : Int)
    (hsent : f sent = .missing) :
    ∀ vs : List Int, (∀ x ∈ vs, x = sent ∨ f x = .value x) →
      classifyIntElems f vs
        = some (vs.map (fun x => if x = sent then none else some x)) := by
  intro vs
  induction vs with
  | nil => intro _; rfl
  | cons a t ih =>
    intro h
    have ha := h a (List.mem_cons_self a t)
    have ht : ∀ x ∈ t, x = sent ∨ f x = .value x :=
      fun x hx => h x (List.mem_cons_of_mem a hx)
    rcases ha with rfl | hval
    · simp [classifyIntElems, hsent, ih ht]
    · have hne : ¬ a = sent := by
        intro heq
        rw [heq, hsent] at hval
        exact IntClass.noConfusion hval
      simp [classifyIntElems, hval, ih ht, hne]

/-- C4: The Integer field decoder accepts every integer wire kind — int8,
int16, int32, scalar or array — mapping the missing sentinel to `None` at
scalar granularity and per element inside arrays, and fails with
`TypeMismatch` on every non-integer wire kind.  Concretely, `[0x00]`
decodes to `None`, `[0x11, 0x08]` to `Some(Integer(8))`, and
`[0x11, 0x80]` (the int8 missing sentinel) to `None`. -/
theorem c4_integer_decoder (src rest : List Nat) :
    (readValue src = .ok (none, rest) → readIntegerValue src = .ok (none, rest))
    ∧ (∀ n, readValue src = .ok (some (.int8 (some (.value n))), rest) →
        readIntegerValue src = .ok (some (.integer n), rest))
    ∧ (∀ n, readValue src = .ok (some (.int16 (some (.value n))), rest) →
        readIntegerValue src = .ok (some (.integer n), rest))
    ∧ (∀ n, readValue src = .ok (some (.int32 (some (.value n))), rest) →
        readIntegerValue src = .ok (some (.integer n), rest))
    ∧ (readValue src = .ok (some (.int8 (some .missing)), rest) →
        readIntegerValue src = .ok (none, rest))
    ∧ (readValue src = .ok (some (.int16 (some .missing)), rest) →
        readIntegerValue src = .ok (none, rest))
    ∧ (readValue src = .ok (some (.int32 (some .missing)), rest) →
        readIntegerValue src = .ok (none, rest))
    ∧ (∀ vs, readValue src = .ok (some (.array (.int8 vs)), rest) →
        (∀ x ∈ vs, x = -128 ∨ int8From x = .value x) →
        readIntegerValue src
          = .ok (some (.integerArray
              (vs.map (fun x => if x = -128 then none else some x))), rest))
    ∧ (∀ vs, readValue src = .ok (some (.array (.int16 vs)), rest) →
        (∀ x ∈ vs, x = -32768 ∨ int16From x = .value x) →
        readIntegerValue src
          = .ok (some (.integerArray
              (vs.map (fun x => if x = -32768 then none else some x))), rest))
    ∧ (∀ vs, readValue src = .ok (some (.array (.int32 vs)), rest) →
        (∀ x ∈ vs, x = -2147483648 ∨ int32From x = .value x) →
        readIntegerValue src
          = .ok (some (.integerArray
              (vs.map (fun x => if x = -2147483648 then none else some x))), rest))
    ∧ (∀ v, readValue src = .ok (some v, rest) → actualFieldTy v ≠ .integer →
        readIntegerValue src = .err (typeMismatchError (some v) .integer))
    ∧ readIntegerValue [0x00] = .ok (none, [])
    ∧ readIntegerValue [0x11, 0x08] = .ok (some (.integer 8), [])
    ∧ readIntegerValue [0x11, 0x80] = .ok (none, []) := by
  refine ⟨?_, ?_, ?_, ?_, ?_, ?_, ?_, ?_, ?_, ?_, ?_, rfl, rfl, rfl⟩
  · intro h; unfold readIntegerValue; rw [h]
  · intro n h; unfold readIntegerValue; rw [h]
  · intro n h; unfold readIntegerValue; rw [h]
  · intro n h; unfold readIntegerValue; rw [h]
  · intro h; unfold readIntegerValue; rw [h]
  · intro h; unfold readIntegerValue; rw [h]
  · intro h; unfold readIntegerValue; rw [h]
  · intro vs h helems
    have hc := classifyIntElems_of_plain_or_missing int8From (-128) (by decide) vs helems
    unfold readIntegerValue
    rw [h]
    simp [hc]
  · intro vs h helems
    have hc := classifyIntElems_of_plain_or_missing int16From (-32768) (by decide) vs helems
    unfold readIntegerValue
    rw [h]
    simp [hc]
  · intro vs h helems
    have hc := classifyIntElems_of_plain_or_missing int32From (-2147483648) (by decide) vs helems
    unfold readIntegerValue
    rw [h]
    simp [hc]
  · intro v h hne
    unfold readIntegerValue
    rw [h]
    match v with
    | .int8 _ | .int16 _ | .int32 _ => exact absurd rfl hne
    | .array (.int8 _) | .array (.int16 _) | .array (.int32 _) => exact absurd rfl hne
    | .float fv =>
      match fv with
      | none => rfl
      | some (.value _) => rfl
      | some .missing => rfl
      | some .endOfVector => rfl
      | some (.reserved _) => rfl
    | .string sv =>
      match sv with
      | none => rfl
      | some _ => rfl
    | .array (.float _) => rfl

/-- C4 witness: the theorem applied to a concrete int8 array with a
per-element missing sentinel and to a concrete string-kind payload. -/
theorem c4_witness :
    readIntegerValue [0x21, 0x08, 0x80]
      = .ok (some (.integerArray [some 8, none]), [])
    ∧ readIntegerValue [0x17, 0x6E] = .err (.typeMismatch (some .string) .integer) := by
  constructor
  · have h := (c4_integer_decoder [0x21, 0x08, 0x80] []).2.2.2.2.2.2.2.1
      [8, -128] (by rfl) (by decide)
    simpa using h
  · exact (c4_integer_decoder [0x17, 0x6E] []).2.2.2.2.2.2.2.2.2.2.1
      (.string (some ['n'])) (by rfl) (by decide)

/-- C10: Reading a record's quality score classifies the 4-byte
little-endian float payload at bytes 12..16 of the site buffer:
`Ok(None)` exactly for the missing sentinel, an `InvalidData` error
exactly for the other reserved payloads (end-of-vector and the reserved
range), and `Ok(Some(bits))` exactly for every ordinary bit pattern — a
reserved pattern is never returned as a number. -/
theorem c10_quality_score (buf : List Nat) (bits : Nat)
    (hlen : 16 ≤ buf.length)
    (hbits : leNat ((buf.drop 12).take 4) = bits) :
    (qualityScore buf = .ok none ↔ bits = 0x7F800001)
    ∧ (qualityScore buf = .err .invalidData ↔
        (bits = 0x7F800002 ∨ (0x7F800003 ≤ bits ∧ bits ≤ 0x7F800007)))
    ∧ (∀ n, qualityScore buf = .ok (some n) ↔
        (bits = n ∧ bits ≠ 0x7F800001 ∧ bits ≠ 0x7F800002
          ∧ ¬(0x7F800003 ≤ bits ∧ bits ≤ 0x7F800007))) := by
  unfold qualityScore
  rw [if_pos hlen, hbits]
  unfold floatFromBits
  by_cases h1 : bits = 0x7F800001
  · simp [h1]
  · by_cases h2 : bits = 0x7F800002
    · subst h2
      simp at h1 ⊢
    · by_cases h3 : 0x7F800003 ≤ bits ∧ bits ≤ 0x7F800007
      · refine ⟨?_, ?_, ?_⟩ <;> simp [h1, h2, h3]
      · refine ⟨?_, ?_, ?_⟩ <;> simp [h1, h2, h3]

/-- C10 witness: the default record's site buffer carries the missing
sentinel (`Ok(None)`); replacing it with the end-of-vector pattern yields
`InvalidData`; an ordinary pattern comes back as a value. -/
theorem c10_witness :
    qualityScore [0, 0, 0, 0, 0, 0, 0, 0, 1, 0, 0, 0,
      0x01, 0x00, 0x80, 0x7F, 0, 0, 1, 0, 0, 0, 0, 0] = .ok none
    ∧ qualityScore [0, 0, 0, 0, 0, 0, 0, 0, 1, 0, 0, 0,
        0x02, 0x00, 0x80, 0x7F, 0, 0, 1, 0, 0, 0, 0, 0] = .err .invalidData
    ∧ qualityScore [0, 0, 0, 0, 0, 0, 0, 0, 1, 0, 0, 0,
        0x00, 0x00, 0x80, 0x3F, 0, 0, 1, 0, 0, 0, 0, 0] = .ok (some 0x3F800000) := by
  refine ⟨?_, ?_, ?_⟩
  · exact (c10_quality_score _ 0x7F800001 (by decide) (by decide)).1.mpr rfl
  · exact (c10_quality_score _ 0x7F800002 (by decide) (by decide)).2.1.mpr (Or.inl rfl)
  · exact ((c10_quality_score _ 0x3F800000 (by decide) (by decide)).2.2 0x3F800000).mpr
      (by refine ⟨rfl, ?_, ?_, ?_⟩ <;> decide)

/-- Looking up a key right after inserting it finds the inserted value. -/
theorem alookup_aput_self {β : Type} (l : List (String × β)) (k : String) (v : β) :
    alookup (aput l k v).2 k = some v := by
  induction l with
  | nil => simp [aput, alookup]
  | cons p t ih =>
    rcases p with ⟨k', v'⟩
    by_cases h : k' = k
    · simp [aput, alookup, h]
    · simp [aput, alookup, h, ih]

/-- C2: Inserting identifier `X` with an explicit index hint `i`:
if `X` is already bound at `i` the map is returned unchanged; if `X` is
bound at a different index `j` the insert fails with a position mismatch
carrying `(i, X)` as the actual pair and `(j, X)` as the expected pair;
if `X` is unbound it becomes bound at exactly position `i`, with the
entry table extended by absent holes as needed. -/
theorem c2_insert_with_index_hint (m : StringMap) (X : String) (i : Nat) :
    (m.getFull X = some (i, X) → stringMapsInsert m X (some i) = .ok m)
    ∧ (∀ j, m.getFull X = some (j, X) → i ≠ j →
        stringMapsInsert m X (some i)
          = .error (.stringMapPositionMismatch (i, X) (j, X)))
    ∧ (m.getFull X = none →
        stringMapsInsert m X (some i) = .ok (m.insertAt i X)
        ∧ (m.insertAt i X).getIndex i = some X
        ∧ (m.insertAt i X).getFull X = some (i, X)
        ∧ (m.insertAt i X).entries.length = max m.entries.length (i + 1)
        ∧ (∀ p, m.entries.length ≤ p → p < i →
            (m.insertAt i X).getIndex p = none)) := by
  refine ⟨?_, ?_, ?_⟩
  · intro h
    unfold stringMapsInsert
    rw [h]
    simp
  · intro j h hne
    unfold stringMapsInsert
    rw [h]
    simp [Prod.ext_iff, hne]
  · intro h
    unfold stringMapsInsert
    rw [h]
    refine ⟨rfl, ?_, ?_, ?_, ?_⟩
    · unfold StringMap.insertAt StringMap.getIndex
      by_cases hi : i < m.entries.length
      · simp only [hi, if_true]
        simp [List.getD_eq_getElem?_getD, List.getElem?_set_self, hi]
      · simp only [hi, if_false]
        have hlen : i < (m.entries ++ List.replicate (i + 1 - m.entries.length) none).length := by
          rw [List.length_append, List.length_replicate]
          omega
        rw [List.getD_eq_getElem?_getD, List.getElem?_set_self hlen]
        rfl
    · unfold StringMap.insertAt StringMap.getFull
      simp [alookup_aput_self]
    · unfold StringMap.insertAt
      by_cases hi : i < m.entries.length
      · simp only [hi, if_true]
        simp [List.length_set]
        omega
      · simp only [hi, if_false]
        simp [List.length_set, List.length_append, List.length_replicate]
        omega
    · intro p hp hpi
      have hi : ¬ i < m.entries.length := by omega
      unfold StringMap.insertAt StringMap.getIndex
      simp only [hi, if_false]
      have hne : i ≠ p := by omega
      rw [List.getD_eq_getElem?_getD, List.getElem?_set_ne hne,
        List.getElem?_append_right hp, List.getElem?_replicate]
      have : p - m.entries.length < i + 1 - m.entries.length := by omega
      simp [this]

/-- C2 witness: on the default string dictionary (`PASS` at 0),
re-inserting `PASS` with hint 0 is a no-op, hint 8 is a position mismatch
reporting actual `(8, PASS)` against expected `(0, PASS)`, and inserting
the unbound `q10` at hint 3 binds it at exactly index 3 with holes at 1
and 2. -/
theorem c2_witness :
    stringMapsInsert (StringMap.empty.insert "PASS") "PASS" (some 0)
      = .ok (StringMap.empty.insert "PASS")
    ∧ stringMapsInsert (StringMap.empty.insert "PASS") "PASS" (some 8)
      = .error (.stringMapPositionMismatch (8, "PASS") (0, "PASS"))
    ∧ stringMapsInsert (StringMap.empty.insert "PASS") "q10" (some 3)
      = .ok ((StringMap.empty.insert "PASS").insertAt 3 "q10")
    ∧ ((StringMap.empty.insert "PASS").insertAt 3 "q10").getIndex 3 = some "q10"
    ∧ ((StringMap.empty.insert "PASS").insertAt 3 "q10").getIndex 1 = none := by
  have h1 := (c2_insert_with_index_hint (StringMap.empty.insert "PASS") "PASS" 0).1 rfl
  have h2 := (c2_insert_with_index_hint (StringMap.empty.insert "PASS") "PASS" 8).2.1
    0 rfl (by decide)
  have h3 := (c2_insert_with_index_hint (StringMap.empty.insert "PASS") "q10" 3).2.2 rfl
  exact ⟨h1, h2, h3.1, h3.2.1, h3.2.2.2.2 1 (by decide) (by decide)⟩

/-- `splitOnComma` always yields at least one segment. -/
theorem splitOnComma_ne_nil (s : List Char) : splitOnComma s ≠ [] := by
  cases s with
  | nil => simp [splitOnComma]
  | cons c cs =>
    unfold splitOnComma
    by_cases h : c = ','
    · simp [h]
    · rcases hsp : splitOnComma cs with _ | ⟨s1, ss⟩ <;> simp [h, hsp]

/-- Concatenating the comma-split segments of a string recovers the
string with its comma delimiters removed. -/
theorem flatten_splitOnComma (s : List Char) :
    (splitOnComma s).flatten = s.filter (fun c => c != ',') := by
  induction s with
  | nil => rfl
  | cons c cs ih =>
    by_cases h : c = ','
    · simp [splitOnComma, h, ih]
    · rcases hsp : splitOnComma cs with _ | ⟨s1, ss⟩
      · exact absurd hsp (splitOnComma_ne_nil cs)
      · unfold splitOnComma
        simp only [h, if_false, hsp]
        have hfl : ((c :: s1) :: ss).flatten = c :: (splitOnComma cs).flatten := by
          rw [hsp]
          simp
        rw [hfl, ih]
        simp [h]

/-- C5 counterexample: on the 2-byte string "ab" (wire bytes
`[0x27, 'a', 'b']`) the Character decoder produces the two-element array
`[Some('a'), Some('b')]` although the string has a single comma segment —
refuting "one character per segment". -/
theorem c5_counterexample :
    readCharacterValue [0x27, 0x61, 0x62]
      = .ok (some (.characterArray [some 'a', some 'b']), [])
    ∧ (splitOnComma ['a', 'b']).length = 1
    ∧ ¬ ([some 'a', some 'b'] : List (Option Char)).length
        = (splitOnComma ['a', 'b']).length := by
  refine ⟨by rfl, rfl, by decide⟩

/-- C5 (amended): the Character decoder maps an absent value or
zero-element string to `None` and a one-byte string to a single
character; a longer string is split on the comma delimiter and the
characters of every segment are flattened in order — equivalently, the
comma delimiters are dropped — with each literal `'.'` character mapped
to `None` (one element per remaining character, which is one per segment
exactly when every segment is a single character); a non-string wire kind
is a `TypeMismatch`.  Concretely, `[0x37, 'n', ',', '.']` decodes to
`[Some('n'), None]`. -/
theorem c5_character_decoder (src rest : List Nat) :
    (readValue src = .ok (none, rest) → readCharacterValue src = .ok (none, rest))
    ∧ (readValue src = .ok (some (.string none), rest) →
        readCharacterValue src = .ok (none, rest))
    ∧ (∀ c, readValue src = .ok (some (.string (some [c])), rest) →
        readCharacterValue src = .ok (some (.character c), rest))
    ∧ (∀ s, readValue src = .ok (some (.string (some s)), rest) → 2 ≤ s.length →
        readCharacterValue src
          = .ok (some (.characterArray
              ((s.filter (fun c => c != ',')).map
                (fun c => if c = '.' then none else some c))), rest))
    ∧ (∀ v, readValue src = .ok (some v, rest) → actualFieldTy v ≠ .string →
        readCharacterValue src = .err (typeMismatchError (some v) .character))
    ∧ readCharacterValue [0x37, 0x6E, 0x2C, 0x2E]
        = .ok (some (.characterArray [some 'n', none]), []) := by
  refine ⟨?_, ?_, ?_, ?_, ?_, by rfl⟩
  · intro h; unfold readCharacterValue; rw [h]
  · intro h; unfold readCharacterValue; rw [h]
  · intro c h
    unfold readCharacterValue
    rw [h]
    rfl
  · intro s h hs
    unfold readCharacterValue
    rw [h]
    have hgt : ¬ s.length ≤ 1 := by omega
    simp only [hgt, if_false]
    rw [flatten_splitOnComma]
  · intro v h hne
    unfold readCharacterValue
    rw [h]
    match v with
    | .string _ => exact absurd rfl hne
    | .int8 iv =>
      match iv with
      | none => rfl
      | some (.value _) => rfl
      | some .missing => rfl
      | some .endOfVector => rfl
      | some (.reserved _) => rfl
    | .int16 iv =>
      match iv with
      | none => rfl
      | some (.value _) => rfl
      | some .missing => rfl
      | some .endOfVector => rfl
      | some (.reserved _) => rfl
    | .int32 iv =>
      match iv with
      | none => rfl
      | some (.value _) => rfl
      | some .missing => rfl
      | some .endOfVector => rfl
      | some (.reserved _) => rfl
    | .float fv =>
      match fv with
      | none => rfl
      | some (.value _) => rfl
      | some .missing => rfl
      | some .endOfVector => rfl
      | some (.reserved _) => rfl
    | .array (.int8 _) => rfl
    | .array (.int16 _) => rfl
    | .array (.int32 _) => rfl
    | .array (.float _) => rfl

/-- C5 witness: the theorem applied to concrete wire payloads — the
zero-element string, a one-byte string, the 3-byte string "n,.", and an
int8 scalar. -/
theorem c5_witness :
    readCharacterValue [0x07] = .ok (none, [])
    ∧ readCharacterValue [0x17, 0x6E] = .ok (some (.character 'n'), [])
    ∧ readCharacterValue [0x37, 0x6E, 0x2C, 0x2E]
        = .ok (some (.characterArray [some 'n', none]), [])
    ∧ readCharacterValue [0x11, 0x08]
        = .err (.typeMismatch (some .integer) .character) := by
  refine ⟨?_, ?_, ?_, ?_⟩
  · exact (c5_character_decoder [0x07] []).2.1 (by rfl)
  · exact (c5_character_decoder [0x17, 0x6E] []).2.2.1 'n' (by rfl)
  · have h := (c5_character_decoder [0x37, 0x6E, 0x2C, 0x2E] []).2.2.2.1
      ['n', ',', '.'] (by rfl) (by decide)
    simpa using h
  · exact (c5_character_decoder [0x11, 0x08] []).2.2.2.2.1
      (.int8 (some (.value 8))) (by rfl) (by decide)

/-- A suffix of `src` sits at offset `src.length - r.length`. -/
theorem drop_of_suffix {α : Type} (src r : List α) (k : Nat) (h : r = src.drop k) :
    src.drop (src.length - r.length) = r := by
  subst h
  rw [List.length_drop]
  by_cases hk : k ≤ src.length
  · congr 1
    omega
  · rw [List.drop_eq_nil_of_le (le_of_lt (Nat.lt_of_not_le hk))]
    rw [List.drop_eq_nil_of_le]
    omega

/-- `readSigned` consumes exactly `w` bytes. -/
theorem readSigned_drop (w : Nat) (src : List Nat) (n : Int) (r : List Nat)
    (h : readSigned w src = .ok (n, r)) : r = src.drop w := by
  unfold readSigned readBytesLE at h
  by_cases hw : w ≤ src.length
  · rw [if_pos hw] at h
    simp at h
    exact h.2.symm
  · rw [if_neg hw] at h
    simp at h

/-- The cursor returned by `readArrayLen` is a suffix of its input. -/
theorem readArrayLen_suffix (src : List Nat) (n : Nat) (r : List Nat)
    (h : readArrayLen src = .ok (n, r)) : ∃ k, r = src.drop k := by
  unfold readArrayLen at h
  cases src with
  | nil => simp [readU8] at h
  | cons b rest =>
    simp only [readU8] at h
    by_cases hb : b / 16 = 1
    · rw [if_pos hb] at h
      split at h
      · split at h
        · cases h
        · rename_i n' r' hs
          split at h
          · cases h
          · cases h
            exact ⟨1 + 1, by
              simpa [List.drop_succ_cons] using readSigned_drop 1 rest n' r hs⟩
      · split at h
        · cases h
        · rename_i n' r' hs
          split at h
          · cases h
          · cases h
            exact ⟨2 + 1, by
              simpa [List.drop_succ_cons] using readSigned_drop 2 rest n' r hs⟩
      · split at h
        · cases h
        · rename_i n' r' hs
          split at h
          · cases h
          · cases h
            exact ⟨4 + 1, by
              simpa [List.drop_succ_cons] using readSigned_drop 4 rest n' r hs⟩
      · cases h
    · rw [if_neg hb] at h
      cases h

/-- The cursor returned by `readType` is a suffix of its input. -/
theorem readType_suffix (src : List Nat) (t : Option Ty) (r : List Nat)
    (h : readType src = .ok (t, r)) : ∃ k, r = src.drop k := by
  unfold readType at h
  cases src with
  | nil => simp [readU8] at h
  | cons b rest =>
    simp only [readU8] at h
    by_cases hb : b / 16 = 15
    · rw [if_pos hb] at h
      split at h
      · cases h
      · rename_i len rest2 harr
        obtain ⟨k, hk⟩ := readArrayLen_suffix rest len rest2 harr
        split at h <;> try cases h
        all_goals exact ⟨k + 1, by simpa [List.drop_succ_cons] using hk⟩
    · rw [if_neg hb] at h
      split at h
      · rename_i e heq
        cases heq
      · rename_i n2 rest2 heq
        cases heq
        split at h
        · cases h
          exact ⟨1, by simp⟩
        · cases h
          exact ⟨1, by simp⟩
        · cases h
          exact ⟨1, by simp⟩
        · cases h
          exact ⟨1, by simp⟩
        · cases h
          exact ⟨1, by simp⟩
        · cases h
          exact ⟨1, by simp⟩
        · cases h

/-- `consume_string` propagates a type-read failure as the matching
`io::ErrorKind`. -/
theorem consumeString_read_err (buf : List Nat) (off : Nat) (e : WireError)
    (h : readType buf = .error e) :
    consumeString buf off = .err (wireToIo e) := by
  unfold consumeString
  rw [h]

/-- `consume_string` fails with `InvalidData` when the tag read is not a
string-kind tag. -/
theorem consumeString_nonstring (buf : List Nat) (off : Nat) (t : Option Ty)
    (r : List Nat) (h : readType buf = .ok (t, r))
    (ht : ∀ len, t ≠ some (.string len)) :
    consumeString buf off = .err .invalidData := by
  unfold consumeString
  rw [h]
  match t with
  | none => rfl
  | some (.int8 _) => rfl
  | some (.int16 _) => rfl
  | some (.int32 _) => rfl
  | some (.float _) => rfl
  | some (.string len) => exact absurd rfl (ht len)

/-- `consume_string` panics when the declared string length exceeds the
remaining buffer (Rust's out-of-range slice index). -/
theorem consumeString_overrun (buf : List Nat) (off len : Nat) (r : List Nat)
    (h : readType buf = .ok (some (.string len), r)) (hlen : r.length < len) :
    consumeString buf off = .panic := by
  unfold consumeString
  rw [h]
  simp only
  rw [if_neg (by omega)]

/-- `consume_string` on a string tag whose payload is available: the span
starts right after the consumed header, ends `len` later, and the cursor
advances past the payload. -/
theorem consumeString_ok (buf : List Nat) (off len : Nat) (r : List Nat)
    (h : readType buf = .ok (some (.string len), r)) (hlen : len ≤ r.length) :
    consumeString buf off
      = .ok ((off + (buf.length - r.length), off + (buf.length - r.length) + len),
          r.drop len) := by
  unfold consumeString
  rw [h]
  simp only
  rw [if_pos hlen]

/-- C3 counterexample: a buffer that ends inside the first string's
payload (24 fixed-prefix bytes, then the tag `0x17` declaring a 1-byte
string with no payload byte following).  The scan panics via Rust's
out-of-range slice index instead of failing with `UnexpectedEof` as the
claim states for a buffer that ends before both reads complete. -/
theorem c3_counterexample :
    bcfIndex (List.replicate 24 0 ++ [0x17]) = .panic
    ∧ bcfIndex (List.replicate 24 0 ++ [0x17]) ≠ .err .unexpectedEof := by
  exact ⟨by rfl, by decide⟩

/-- C3 (amended): the boundary indexer scans from byte 24 (right after
the fixed prefix).  A buffer shorter than the fixed prefix, or one that
ends while a type header is being read, gives `UnexpectedEof`; a header
read that does not observe a string-kind tag gives `InvalidData`; a
string header whose declared length exceeds the remaining buffer makes
the scan panic (out-of-range slice) rather than return an error; when
both string headers and payloads fit, the result records both spans as
absolute byte offsets into the original buffer — the identifiers span
starting right after the first header and the reference-bases span right
after the second — and each span's slice of the original buffer is
exactly the payload the scan consumed. -/
theorem c3_boundary_indexer (buf : List Nat) :
    (buf.length < 24 → bcfIndex buf = .err .unexpectedEof)
    ∧ (∀ e, 24 ≤ buf.length → readType (buf.drop 24) = .error e →
        bcfIndex buf = .err (wireToIo e))
    ∧ (∀ t r1, 24 ≤ buf.length → readType (buf.drop 24) = .ok (t, r1) →
        (∀ len, t ≠ some (.string len)) → bcfIndex buf = .err .invalidData)
    ∧ (∀ len1 r1, 24 ≤ buf.length →
        readType (buf.drop 24) = .ok (some (.string len1), r1) →
        r1.length < len1 → bcfIndex buf = .panic)
    ∧ (∀ len1 r1, 24 ≤ buf.length →
        readType (buf.drop 24) = .ok (some (.string len1), r1) →
        len1 ≤ r1.length →
        (∀ e, readType (r1.drop len1) = .error e →
            bcfIndex buf = .err (wireToIo e))
        ∧ (∀ t r2, readType (r1.drop len1) = .ok (t, r2) →
            (∀ len, t ≠ some (.string len)) → bcfIndex buf = .err .invalidData)
        ∧ (∀ len2 r2, readType (r1.drop len1) = .ok (some (.string len2), r2) →
            r2.length < len2 → bcfIndex buf = .panic)
        ∧ (∀ len2 r2, readType (r1.drop len1) = .ok (some (.string len2), r2) →
            len2 ≤ r2.length →
            bcfIndex buf = .ok
              { ids_range :=
                  (24 + ((buf.drop 24).length - r1.length),
                    24 + ((buf.drop 24).length - r1.length) + len1)
                reference_bases_range :=
                  (24 + ((buf.drop 24).length - r1.length) + len1
                      + ((r1.drop len1).length - r2.length),
                    24 + ((buf.drop 24).length - r1.length) + len1
                      + ((r1.drop len1).length - r2.length) + len2) }
            ∧ (buf.drop (24 + ((buf.drop 24).length - r1.length))).take len1
                = r1.take len1
            ∧ (buf.drop (24 + ((buf.drop 24).length - r1.length) + len1
                  + ((r1.drop len1).length - r2.length))).take len2
                = r2.take len2)) := by
  have hids : IDS_START_INDEX = 24 := rfl
  refine ⟨?_, ?_, ?_, ?_, ?_⟩
  · intro hshort
    unfold bcfIndex
    rw [hids, if_neg (by omega)]
  · intro e hlen h
    unfold bcfIndex
    rw [hids, if_pos hlen, consumeString_read_err _ _ _ h]
  · intro t r1 hlen h ht
    unfold bcfIndex
    rw [hids, if_pos hlen, consumeString_nonstring _ _ _ _ h ht]
  · intro len1 r1 hlen h hover
    unfold bcfIndex
    rw [hids, if_pos hlen, consumeString_overrun _ _ _ _ h hover]
  · intro len1 r1 hlen h hfit
    have hdrop1 : buf.drop (24 + ((buf.drop 24).length - r1.length)) = r1 := by
      obtain ⟨k, hk⟩ := readType_suffix _ _ _ h
      rw [← List.drop_drop]
      exact drop_of_suffix (buf.drop 24) r1 k hk
    refine ⟨?_, ?_, ?_, ?_⟩
    · intro e h2
      unfold bcfIndex
      rw [hids, if_pos hlen, consumeString_ok _ _ _ _ h hfit]
      simp only
      rw [consumeString_read_err _ _ _ h2]
    · intro t r2 h2 ht
      unfold bcfIndex
      rw [hids, if_pos hlen, consumeString_ok _ _ _ _ h hfit]
      simp only
      rw [consumeString_nonstring _ _ _ _ h2 ht]
    · intro len2 r2 h2 hover
      unfold bcfIndex
      rw [hids, if_pos hlen, consumeString_ok _ _ _ _ h hfit]
      simp only
      rw [consumeString_overrun _ _ _ _ h2 hover]
    · intro len2 r2 h2 hfit2
      have hdrop2 : buf.drop (24 + ((buf.drop 24).length - r1.length) + len1
          + ((r1.drop len1).length - r2.length)) = r2 := by
        obtain ⟨k, hk⟩ := readType_suffix _ _ _ h2
        have e1 : (r1.drop len1).drop ((r1.drop len1).length - r2.length) = r2 :=
          drop_of_suffix (r1.drop len1) r2 k hk
        have e2 : ((buf.drop (24 + ((buf.drop 24).length - r1.length))).drop
            len1).drop ((r1.drop len1).length - r2.length) = r2 := by
          rw [hdrop1]
          exact e1
        rw [List.drop_drop, List.drop_drop] at e2
        convert e2 using 2
        omega
      refine ⟨?_, ?_, ?_⟩
      · unfold bcfIndex
        rw [hids, if_pos hlen, consumeString_ok _ _ _ _ h hfit]
        simp only
        rw [consumeString_ok _ _ _ _ h2 hfit2]
      · rw [hdrop1]
      · rw [hdrop2]

/-- C3 witness: a concrete buffer whose two string fields are "A" and
"CG": the identifiers span is [25, 26) and the reference-bases span is
[27, 29), both absolute offsets into the original 29-byte buffer. -/
theorem c3_witness :
    bcfIndex (List.replicate 24 0 ++ [0x17, 0x41, 0x27, 0x43, 0x47])
      = .ok { ids_range := (25, 26), reference_bases_range := (27, 29) } := by
  have h := ((c3_boundary_indexer
      (List.replicate 24 0 ++ [0x17, 0x41, 0x27, 0x43, 0x47])).2.2.2.2
      1 [0x41, 0x27, 0x43, 0x47] (by decide) (by rfl) (by decide)).2.2.2
      2 [0x43, 0x47] (by rfl) (by decide)
  simpa using h.1

/-- The old-value component of an index-map insert is exactly the lookup
before the insert. -/
theorem aput_fst {β : Type} (l : List (String × β)) (k : String) (v : β) :
    (aput l k v).1 = alookup l k := by
  induction l with
  | nil => rfl
  | cons p t ih =>
    rcases p with ⟨k', v'⟩
    by_cases h : k' = k
    · simp [aput, alookup, h]
    · simp [aput, alookup, h, ih]

/-- Lookup after an index-map insert: the inserted key maps to the new
value, every other key is unchanged. -/
theorem alookup_aput {β : Type} (l : List (String × β)) (k key : String) (v : β) :
    alookup (aput l k v).2 key = if key = k then some v else alookup l key := by
  induction l with
  | nil =>
    simp only [aput, alookup]
    by_cases h : k = key
    · rw [if_pos h, if_pos h.symm]
    · rw [if_neg h, if_neg (fun hh => h hh.symm)]
  | cons p t ih =>
    rcases p with ⟨k', v'⟩
    by_cases h : k' = k
    · subst h
      simp only [aput, if_pos rfl, alookup]
      by_cases hk : k' = key
      · rw [if_pos hk, if_pos hk.symm]
      · rw [if_neg hk, if_neg (fun hh => hk hh.symm), if_neg hk]
    · have ha : (aput ((k', v') :: t) k v).2 = (k', v') :: (aput t k v).2 := by
        simp only [aput, if_neg h]
      rw [ha, alookup]
      by_cases hk : k' = key
      · rw [if_pos hk, if_neg (fun hh : key = k => h (hk.trans hh))]
        simp only [alookup]
        rw [if_pos hk]
      · rw [if_neg hk, ih]
        by_cases hkey : key = k
        · rw [if_pos hkey, if_pos hkey]
        · rw [if_neg hkey, if_neg hkey]
          simp only [alookup]
          rw [if_neg hk]

/-- Every key inserted by `infoInsertAll`, and every key already present,
is present afterwards. -/
theorem infoLookup_infoInsertAll_isSome (fs : List (String × Option FieldValue)) :
    ∀ (m : InfoMap) (key : String),
      (infoLookup m key).isSome ∨ key ∈ fs.map Prod.fst →
      (infoLookup (infoInsertAll m fs) key).isSome := by
  induction fs with
  | nil =>
    intro m key h
    rcases h with h | h
    · exact h
    · simp at h
  | cons p t ih =>
    rcases p with ⟨k0, v0⟩
    intro m key h
    refine ih (infoInsert m k0 v0).2 key ?_
    by_cases hk : key = k0
    · left
      have := alookup_aput m k0 key v0
      rw [if_pos hk] at this
      simp [infoLookup, infoInsert, this]
    · rcases h with h | h
      · left
        have := alookup_aput m k0 key v0
        rw [if_neg hk] at this
        simpa [infoLookup, infoInsert, this] using h
      · right
        simp at h
        rcases h with h | h
        · exact absurd h hk
        · simpa using h

/-- The `read_info` loop on a block whose first repeated key occurs after
a run of distinct, successfully decoded fields: it stops at the repeat
with `DuplicateKey`, leaving in the map every field inserted so far
(including the repeat's overwrite). -/
theorem readInfoLoop_first_dup (hdr : FieldHeader) :
    ∀ (fs : List (String × Option FieldValue)) (k : String) (v : Option FieldValue)
      (src rest : List Nat) (acc : InfoMap) (n : Nat),
      readFieldList hdr (fs.length + 1) src = .ok (fs ++ [(k, v)], rest) →
      (∀ key ∈ fs.map Prod.fst, infoLookup acc key = none) →
      (fs.map Prod.fst).Nodup →
      ((infoLookup acc k).isSome ∨ k ∈ fs.map Prod.fst) →
      fs.length + 1 ≤ n →
      readInfoLoop hdr n src acc
        = (.err (.duplicateKey k), infoInsertAll acc (fs ++ [(k, v)]), rest) := by
  intro fs
  induction fs with
  | nil =>
    intro k v src rest acc n hread hacc hnodup hdup hn
    have hk : (infoLookup acc k).isSome := by
      rcases hdup with h | h
      · exact h
      · simp at h
    obtain ⟨old, hold⟩ := Option.isSome_iff_exists.mp hk
    unfold readFieldList at hread
    split at hread
    · cases hread
    · cases hread
    · rename_i kv rest1 hfield
      unfold readFieldList at hread
      cases hread
      obtain ⟨m, rfl⟩ : ∃ m, n = m + 1 := ⟨n - 1, by omega⟩
      unfold readInfoLoop
      rw [hfield]
      have hins : infoInsert acc k v = (some old, (infoInsert acc k v).2) := by
        have h1 : (infoInsert acc k v).1 = some old := by
          rw [infoInsert, aput_fst]
          exact hold
        exact Prod.ext h1 rfl
      simp only
      rw [hins]
      rfl
  | cons p t ih =>
    rcases p with ⟨k0, v0⟩
    intro k v src rest acc n hread hacc hnodup hdup hn
    unfold readFieldList at hread
    split at hread
    · cases hread
    · cases hread
    · rename_i kv rest1 hfield
      split at hread
      · cases hread
      · cases hread
      · rename_i fs2 rest2 hlist
        cases hread
        obtain ⟨m, rfl⟩ : ∃ m, n = m + 1 := ⟨n - 1, by omega⟩
        have hk0 : infoLookup acc k0 = none :=
          hacc k0 (by simp)
        have hins : infoInsert acc k0 v0 = (none, (infoInsert acc k0 v0).2) := by
          have h1 : (infoInsert acc k0 v0).1 = none := by
            rw [infoInsert, aput_fst]
            exact hk0
          exact Prod.ext h1 rfl
        unfold readInfoLoop
        rw [hfield]
        simp only
        rw [hins]
        simp only
        have hnodup' : (t.map Prod.fst).Nodup := by
          simpa using hnodup.of_cons
        have hk0notin : k0 ∉ t.map Prod.fst := by
          have h := hnodup
          rw [List.map_cons, List.nodup_cons] at h
          exact h.1
        have hacc' : ∀ key ∈ t.map Prod.fst,
            infoLookup (infoInsert acc k0 v0).2 key = none := by
          intro key hkey
          have hne : ¬ key = k0 := fun hh => hk0notin (hh ▸ hkey)
          rw [infoLookup, infoInsert, alookup_aput, if_neg hne]
          exact hacc key (by simp [hkey])
        have hdup' : (infoLookup (infoInsert acc k0 v0).2 k).isSome
            ∨ k ∈ t.map Prod.fst := by
          by_cases hkk : k = k0
          · left
            rw [infoLookup, infoInsert, alookup_aput, if_pos hkk]
            rfl
          · rcases hdup with h | h
            · left
              rw [infoLookup, infoInsert, alookup_aput, if_neg hkk]
              exact h
            · simp at h
              rcases h with h | h
              · exact absurd h hkk
              · right
                simpa using h
        exact ih k v rest1 rest (infoInsert acc k0 v0).2 m hlist hacc' hnodup' hdup'
          (by simpa using hn)

/-- A concrete field-decoding context: the dictionary binds `PASS`/`AA`/`AB`
at 0/1/2 and declares `AA` and `AB` as Integer-typed INFO keys. -/
def dupHeader : FieldHeader :=
  { stringMap :=
      { indices := [("PASS", 0), ("AA", 1), ("AB", 2)]
        entries := [some "PASS", some "AA", some "AB"] }
    infoTypes := [("AA", .integer), ("AB", .integer)] }

/-- A concrete 3-field INFO block: `AA = 8`, `AB = 13`, then `AA = 21`
again — the same key twice within one record. -/
def dupBlockBytes : List Nat :=
  [0x11, 0x01, 0x11, 0x08, 0x11, 0x02, 0x11, 0x0D, 0x11, 0x01, 0x11, 0x15]

/-- C1 counterexample: on an INFO block containing the key `AA` twice,
`read_info` does return the `DuplicateKey` error carrying `AA`, but the
partially built map is NOT discarded: the earlier-inserted key `AB` (and
the overwritten `AA`) remain observable in the caller's map afterward. -/
theorem c1_counterexample :
    (readInfo dupHeader 3 dupBlockBytes []).1 = .err (.duplicateKey "AA")
    ∧ infoLookup (readInfo dupHeader 3 dupBlockBytes []).2.1 "AB"
        = some (some (.integer 13))
    ∧ infoLookup (readInfo dupHeader 3 dupBlockBytes []).2.1 "AA"
        = some (some (.integer 21)) := by
  exact ⟨by rfl, by rfl, by rfl⟩

/-- C1 (amended): for every INFO block whose fields decode successfully
up to the first repeated key, `read_info` fails with `DuplicateKey`
carrying that key — but the partially built map is not discarded: the
caller's map buffer afterward holds exactly the insertions made up to and
including the repeat (whose value overwrites the earlier one in place),
so every earlier-inserted key of the record remains observable.  (The map
is cleared only on entry to the next `read_info` call.) -/
theorem c1_read_info_duplicate_key (hdr : FieldHeader)
    (fs : List (String × Option FieldValue)) (k : String) (v : Option FieldValue)
    (src rest : List Nat) (info0 : InfoMap) (n : Nat)
    (hread : readFieldList hdr (fs.length + 1) src = .ok (fs ++ [(k, v)], rest))
    (hnodup : (fs.map Prod.fst).Nodup)
    (hdup : k ∈ fs.map Prod.fst)
    (hn : fs.length + 1 ≤ n) :
    readInfo hdr n src info0
      = (.err (.duplicateKey k), infoInsertAll [] (fs ++ [(k, v)]), rest)
    ∧ ∀ key ∈ fs.map Prod.fst,
        (infoLookup (readInfo hdr n src info0).2.1 key).isSome := by
  have h := readInfoLoop_first_dup hdr fs k v src rest [] n hread
    (fun key _ => rfl) hnodup (Or.inr hdup) hn
  constructor
  · exact h
  · intro key hkey
    have : (readInfo hdr n src info0).2.1 = infoInsertAll [] (fs ++ [(k, v)]) := by
      unfold readInfo
      rw [h]
    rw [this]
    refine infoLookup_infoInsertAll_isSome (fs ++ [(k, v)]) [] key ?_
    right
    simp [hkey]

/-- C1 witness: the amended theorem applied to the concrete 3-field block
with keys `AA`, `AB`, `AA`. -/
theorem c1_witness :
    (readInfo dupHeader 3 dupBlockBytes []).1 = .err (.duplicateKey "AA")
    ∧ (infoLookup (readInfo dupHeader 3 dupBlockBytes []).2.1 "AB").isSome := by
  have h := c1_read_info_duplicate_key dupHeader
    [("AA", some (.integer 8)), ("AB", some (.integer 13))] "AA"
    (some (.integer 21)) dupBlockBytes [] [] 3
    (by rfl) (by decide) (by decide) (by decide)
  refine ⟨?_, h.2 "AB" (by decide)⟩
  rw [Prod.ext_iff] at h
  rw [h.1.1]
